import Mathlib

/-!
# OogaBooga ledger contract — verification of the specification against the code

Shallow embedding of the OogaBooga contract (`src/lib.rs`) together with the
test-mode storage and dispatcher (`src/test_utils.rs`).

Modelling conventions:
* `u128` values are `Nat`s; every value read from storage is `< 2^128` by
  construction of the 16-byte little-endian decoder, and every value written
  comes from arithmetic that is checked before the write.
* The mock storage is a partial map from string keys to byte vectors
  (`String → Option (List Nat)`), exactly as `MOCK_STORAGE : HashMap<String, Vec<u8>>`.
* Rust's `checked_add` failure is the `balanceOverflow` error, as in the source.
  The *unchecked* `u128` additions and subtractions on the totals
  (`total_ooga + 1`, `total_ooga - 1`, `booga_balance + 1`, `total_booga + 1`)
  follow the overflow-checked (debug-profile) semantics under which the test
  dispatcher runs: an out-of-range result aborts the call at that point.  This
  abort is modelled as the distinguished error `CErr.panic`; writes already
  performed before the abort remain in storage, mirroring the in-place
  mutation of the thread-local mock store.
* Each operation returns `Except CErr _ × Storage`: the storage component is
  the store at the moment the call returned or aborted.
-/

/-- Maximum value of a `u128`. -/
def U128_MAX : Nat := 2 ^ 128 - 1

/-- Little-endian base-256 digits, `n` bytes, of `v` (as `u128::to_le_bytes`
produces for `n = 16`). -/
def leBytesAux : Nat → Nat → List Nat
  | 0, _ => []
  | n + 1, v => v % 256 :: leBytesAux n (v / 256)

/-- `u128::to_le_bytes`: the 16 little-endian bytes of `v`. -/
def toLEBytes (v : Nat) : List Nat := leBytesAux 16 v

/-- `u128::from_le_bytes`: decode a little-endian byte list.  Each entry is
reduced mod 256 because the Rust bytes have type `u8`. -/
def fromLEBytes : List Nat → Nat
  | [] => 0
  | b :: bs => b % 256 + 256 * fromLEBytes bs

/-- The mock key/value store: `MOCK_STORAGE : HashMap<String, Vec<u8>>`. -/
def Storage : Type := String → Option (List Nat)

/-- The cleared store (`TestHarness::new` clears `MOCK_STORAGE`). -/
def emptyStorage : Storage := fun _ => none

/-- `StoragePointer::get_value::<u128>`: 0 when the key is absent or the
stored value is shorter than 16 bytes, otherwise the little-endian `u128`
decoded from the first 16 bytes. -/
def getValue (s : Storage) (key : String) : Nat :=
  match s key with
  | some value => if 16 ≤ value.length then fromLEBytes (value.take 16) else 0
  | none => 0

/-- `StoragePointer::set_value::<u128>`: insert the 16-byte little-endian
encoding of `v` at `key`. -/
def setValue (s : Storage) (key : String) (v : Nat) : Storage :=
  fun k => if k = key then some (toLEBytes v) else s k

/-- Key of `ooga_balance_pointer`: `format!("/ooga-balance/{}", address)`. -/
def oogaKey (address : String) : String := "/ooga-balance/" ++ address

/-- Key of `booga_balance_pointer`: `format!("/booga-balance/{}", address)`. -/
def boogaKey (address : String) : String := "/booga-balance/" ++ address

/-- Key of `total_ooga_pointer`. -/
def totalOogaKey : String := "/total-ooga"

/-- Key of `total_booga_pointer`. -/
def totalBoogaKey : String := "/total-booga"

/-- `OogaBoogaContract::ooga_balance_of`. -/
def ooga_balance_of (s : Storage) (address : String) : Nat := getValue s (oogaKey address)

/-- `OogaBoogaContract::booga_balance_of`. -/
def booga_balance_of (s : Storage) (address : String) : Nat := getValue s (boogaKey address)

/-- `OogaBoogaContract::total_ooga`. -/
def total_ooga_of (s : Storage) : Nat := getValue s totalOogaKey

/-- `OogaBoogaContract::total_booga`. -/
def total_booga_of (s : Storage) : Nat := getValue s totalBoogaKey

/-- `OogaBoogaContract::set_ooga_balance`. -/
def set_ooga_balance (s : Storage) (address : String) (amount : Nat) : Storage :=
  setValue s (oogaKey address) amount

/-- `OogaBoogaContract::set_booga_balance`. -/
def set_booga_balance (s : Storage) (address : String) (amount : Nat) : Storage :=
  setValue s (boogaKey address) amount

/-- `OogaBoogaContract::set_total_ooga`. -/
def set_total_ooga (s : Storage) (amount : Nat) : Storage :=
  setValue s totalOogaKey amount

/-- `OogaBoogaContract::set_total_booga`. -/
def set_total_booga (s : Storage) (amount : Nat) : Storage :=
  setValue s totalBoogaKey amount

/-- The error outcomes of a call.  The first five are the `anyhow` errors the
code returns; `panic` models an arithmetic-overflow abort of the
debug-profile build (not a returned error value). -/
inductive CErr : Type
  | missingOperand
  | invalidOpcodeFormat
  | unrecognizedOpcode
  | balanceOverflow
  | insufficientBalance
  | panic
deriving DecidableEq, Repr

/-- Mock `CallResponse`: the `alkanes` field is always `(vec![], vec![])` in
the test harness, so only `data` is carried. -/
structure CallResponse : Type where
  data : List Nat
deriving DecidableEq, Repr

/-- `OogaBoogaContract::claim_ooga`.  `checked_add` failure is
`balanceOverflow`; the unchecked `total_ooga + 1` aborts (`panic`) if it
would exceed `u128`, before any write. -/
def claim_ooga (s : Storage) (address : String) : Except CErr Unit × Storage :=
  let current_balance := ooga_balance_of s address
  if current_balance + 1 ≤ U128_MAX then
    let total_ooga := total_ooga_of s
    if total_ooga + 1 ≤ U128_MAX then
      (Except.ok (),
        set_ooga_balance (set_total_ooga s (total_ooga + 1)) address (current_balance + 1))
    else (Except.error CErr.panic, s)
  else (Except.error CErr.balanceOverflow, s)

/-- `OogaBoogaContract::exchange_ooga_for_booga`.  The balance writes happen
before the totals are read; each unchecked arithmetic step aborts (`panic`)
at the point the source evaluates it, leaving the writes already made. -/
def exchange_ooga_for_booga (s : Storage) (address : String) : Except CErr Unit × Storage :=
  let ooga_balance := ooga_balance_of s address
  if ooga_balance < 1 then (Except.error CErr.insufficientBalance, s)
  else
    let booga_balance := booga_balance_of s address
    let s1 := set_ooga_balance s address (ooga_balance - 1)
    if booga_balance + 1 ≤ U128_MAX then
      let s2 := set_booga_balance s1 address (booga_balance + 1)
      let total_ooga := total_ooga_of s2
      let total_booga := total_booga_of s2
      if 1 ≤ total_ooga then
        let s3 := set_total_ooga s2 (total_ooga - 1)
        if total_booga + 1 ≤ U128_MAX then
          (Except.ok (), set_total_booga s3 (total_booga + 1))
        else (Except.error CErr.panic, s3)
      else (Except.error CErr.panic, s2)
    else (Except.error CErr.panic, s1)

/-- `str::parse::<u8>`: optional leading `+`, then one or more ASCII digits,
value at most 255. -/
def parseU8 (tok : String) : Option Nat :=
  let cs := match tok.data with
    | '+' :: rest => rest
    | cs => cs
  if cs = [] then none
  else if cs.all Char.isDigit then
    let v := cs.foldl (fun acc c => acc * 10 + (c.toNat - 48)) 0
    if v ≤ 255 then some v else none
  else none

/-- The opcode dispatch of `test_utils::execute`, after the opcode token has
been parsed; `operands` are the remaining input tokens. -/
def dispatch (opcode : Nat) (operands : List String) (s : Storage) :
    Except CErr CallResponse × Storage :=
  if opcode = 0 then
    (Except.ok ⟨[]⟩, set_total_booga (set_total_ooga s 0) 0)
  else if opcode = 1 then
    match operands with
    | [] => (Except.error CErr.missingOperand, s)
    | address :: _ =>
      match claim_ooga s address with
      | (Except.ok _, s') => (Except.ok ⟨[]⟩, s')
      | (Except.error e, s') => (Except.error e, s')
  else if opcode = 2 then
    match operands with
    | [] => (Except.error CErr.missingOperand, s)
    | address :: _ =>
      match exchange_ooga_for_booga s address with
      | (Except.ok _, s') => (Except.ok ⟨[]⟩, s')
      | (Except.error e, s') => (Except.error e, s')
  else if opcode = 3 then
    match operands with
    | [] => (Except.error CErr.missingOperand, s)
    | address :: _ => (Except.ok ⟨toLEBytes (ooga_balance_of s address)⟩, s)
  else if opcode = 4 then
    match operands with
    | [] => (Except.error CErr.missingOperand, s)
    | address :: _ => (Except.ok ⟨toLEBytes (booga_balance_of s address)⟩, s)
  else if opcode = 5 then
    (Except.ok ⟨toLEBytes (total_ooga_of s)⟩, s)
  else if opcode = 6 then
    (Except.ok ⟨toLEBytes (total_booga_of s)⟩, s)
  else
    (Except.error CErr.unrecognizedOpcode, s)

/-- `test_utils::execute`: shift the opcode token (`missingOperand` when the
input list is empty), parse it as `u8` (`invalidOpcodeFormat` on failure),
then dispatch on the remaining tokens. -/
def execute (inputs : List String) (s : Storage) : Except CErr CallResponse × Storage :=
  match inputs with
  | [] => (Except.error CErr.missingOperand, s)
  | tok :: rest =>
    match parseU8 tok with
    | none => (Except.error CErr.invalidOpcodeFormat, s)
    | some opcode => dispatch opcode rest s

/-- Run a sequence of calls; `some` of the final store when every call
succeeded, `none` as soon as one fails. -/
def runCalls (calls : List (List String)) (s : Storage) : Option Storage :=
  match calls with
  | [] => some s
  | c :: rest =>
    match execute c s with
    | (Except.ok _, s') => runCalls rest s'
    | (Except.error _, _) => none

instance {ε α : Type} [DecidableEq ε] [DecidableEq α] : DecidableEq (Except ε α) :=
  fun a b =>
    match a, b with
    | Except.ok x, Except.ok y =>
      if h : x = y then Decidable.isTrue (by rw [h]) else Decidable.isFalse (by simp [h])
    | Except.error x, Except.error y =>
      if h : x = y then Decidable.isTrue (by rw [h]) else Decidable.isFalse (by simp [h])
    | Except.ok _, Except.error _ => Decidable.isFalse (by simp)
    | Except.error _, Except.ok _ => Decidable.isFalse (by simp)

/-! ## Byte-encoding lemmas -/

lemma length_leBytesAux (n v : Nat) : (leBytesAux n v).length = n := by
  induction n generalizing v with
  | zero => rfl
  | succ n ih => simp [leBytesAux, ih]

lemma length_toLEBytes (v : Nat) : (toLEBytes v).length = 16 := length_leBytesAux 16 v

lemma fromLEBytes_leBytesAux (n v : Nat) : fromLEBytes (leBytesAux n v) = v % 256 ^ n := by
  induction n generalizing v with
  | zero => simp [leBytesAux, fromLEBytes, Nat.mod_one]
  | succ n ih =>
    have hp : (256 : Nat) ^ (n + 1) = 256 * 256 ^ n := by ring
    rw [leBytesAux, fromLEBytes, ih, hp]
    have hm := @Nat.mod_mul 256 (256 ^ n) v
    omega

lemma fromLEBytes_toLEBytes (v : Nat) (h : v ≤ U128_MAX) : fromLEBytes (toLEBytes v) = v := by
  have h16 : (256 : Nat) ^ 16 = 2 ^ 128 := by norm_num
  rw [toLEBytes, fromLEBytes_leBytesAux, h16]
  have : v < 2 ^ 128 := by
    have : (0 : Nat) < 2 ^ 128 := Nat.pos_pow_of_pos 128 (by norm_num)
    simp only [U128_MAX] at h
    omega
  exact Nat.mod_eq_of_lt this

lemma fromLEBytes_lt (bs : List Nat) : fromLEBytes bs < 256 ^ bs.length := by
  induction bs with
  | nil => simp [fromLEBytes]
  | cons b bs ih =>
    rw [fromLEBytes]
    have hb : b % 256 < 256 := Nat.mod_lt _ (by norm_num)
    have hp : (256 : Nat) ^ (b :: bs).length = 256 * 256 ^ bs.length := by
      simp [List.length_cons]; ring
    omega

/-! ## Storage access lemmas -/

lemma getValue_le_MAX (s : Storage) (k : String) : getValue s k ≤ U128_MAX := by
  rw [getValue]
  cases hv : s k with
  | none => simp [U128_MAX]
  | some value =>
    by_cases hl : 16 ≤ value.length
    · simp only [hl, if_true]
      have h1 := fromLEBytes_lt (value.take 16)
      have h2 : (value.take 16).length ≤ 16 := by
        simp [List.length_take]
      have h3 : (256 : Nat) ^ (value.take 16).length ≤ 256 ^ 16 :=
        Nat.pow_le_pow_right (by norm_num) h2
      have h16 : (256 : Nat) ^ 16 = 2 ^ 128 := by norm_num
      simp only [U128_MAX]
      omega
    · simp [hl, U128_MAX]

lemma getValue_setValue_self (s : Storage) (k : String) (v : Nat) :
    getValue (setValue s k v) k = v % 2 ^ 128 := by
  have hk : setValue s k v k = some (toLEBytes v) := by simp [setValue]
  rw [getValue, hk]
  show (if 16 ≤ (toLEBytes v).length then fromLEBytes ((toLEBytes v).take 16) else 0)
      = v % 2 ^ 128
  rw [length_toLEBytes]
  simp only [le_refl, if_true]
  have htake : (toLEBytes v).take 16 = toLEBytes v :=
    List.take_of_length_le (by rw [length_toLEBytes])
  rw [htake, toLEBytes, fromLEBytes_leBytesAux]
  norm_num

lemma getValue_setValue_self_of_le (s : Storage) (k : String) (v : Nat) (h : v ≤ U128_MAX) :
    getValue (setValue s k v) k = v := by
  rw [getValue_setValue_self]
  apply Nat.mod_eq_of_lt
  have : (0 : Nat) < 2 ^ 128 := Nat.pos_pow_of_pos 128 (by norm_num)
  simp only [U128_MAX] at h
  omega

lemma getValue_setValue_ne (s : Storage) (k k' : String) (v : Nat) (h : k' ≠ k) :
    getValue (setValue s k v) k' = getValue s k' := by
  rw [getValue, getValue, setValue]
  simp [h]

lemma setValue_app_ne (s : Storage) (k k' : String) (v : Nat) (h : k' ≠ k) :
    setValue s k v k' = s k' := by
  rw [setValue]
  simp [h]

/-! ## Storage-key disjointness -/

lemma oogaKey_inj (a b : String) : oogaKey a = oogaKey b ↔ a = b := by
  constructor
  · intro h
    have h2 := congrArg String.data h
    rw [oogaKey, oogaKey, String.data_append, String.data_append] at h2
    exact String.ext (List.append_cancel_left h2)
  · intro h; rw [h]

lemma boogaKey_inj (a b : String) : boogaKey a = boogaKey b ↔ a = b := by
  constructor
  · intro h
    have h2 := congrArg String.data h
    rw [boogaKey, boogaKey, String.data_append, String.data_append] at h2
    exact String.ext (List.append_cancel_left h2)
  · intro h; rw [h]

lemma oogaKey_ne_boogaKey (a b : String) : oogaKey a ≠ boogaKey b := by
  intro h
  have h2 := congrArg String.data h
  rw [oogaKey, boogaKey, String.data_append, String.data_append] at h2
  have hl : "/ooga-balance/".data = ['/', 'o', 'o', 'g', 'a', '-', 'b', 'a', 'l', 'a', 'n', 'c', 'e', '/'] := rfl
  have hr : "/booga-balance/".data
      = ['/', 'b', 'o', 'o', 'g', 'a', '-', 'b', 'a', 'l', 'a', 'n', 'c', 'e', '/'] := rfl
  rw [hl, hr] at h2
  simp at h2

lemma oogaKey_ne_totalOogaKey (a : String) : oogaKey a ≠ totalOogaKey := by
  intro h
  have h2 := congrArg List.length (congrArg String.data h)
  rw [oogaKey, String.data_append] at h2
  simp [totalOogaKey] at h2

lemma oogaKey_ne_totalBoogaKey (a : String) : oogaKey a ≠ totalBoogaKey := by
  intro h
  have h2 := congrArg List.length (congrArg String.data h)
  rw [oogaKey, String.data_append] at h2
  simp [totalBoogaKey] at h2

lemma boogaKey_ne_totalOogaKey (a : String) : boogaKey a ≠ totalOogaKey := by
  intro h
  have h2 := congrArg List.length (congrArg String.data h)
  rw [boogaKey, String.data_append] at h2
  simp [totalOogaKey] at h2

lemma boogaKey_ne_totalBoogaKey (a : String) : boogaKey a ≠ totalBoogaKey := by
  intro h
  have h2 := congrArg List.length (congrArg String.data h)
  rw [boogaKey, String.data_append] at h2
  simp [totalBoogaKey] at h2

lemma totalOogaKey_ne_totalBoogaKey : totalOogaKey ≠ totalBoogaKey := by decide

/-! ## Ledger field update lemmas -/

lemma mod_eq_of_le_MAX (v : Nat) (h : v ≤ U128_MAX) : v % 2 ^ 128 = v := by
  apply Nat.mod_eq_of_lt
  have : (0 : Nat) < 2 ^ 128 := Nat.pos_pow_of_pos 128 (by norm_num)
  simp only [U128_MAX] at h
  omega

lemma ooga_of_set_ooga (s : Storage) (a a' : String) (v : Nat) :
    ooga_balance_of (set_ooga_balance s a v) a'
      = if a' = a then v % 2 ^ 128 else ooga_balance_of s a' := by
  rw [ooga_balance_of, set_ooga_balance]
  by_cases h : a' = a
  · subst h; rw [if_pos rfl, getValue_setValue_self]
  · rw [if_neg h, getValue_setValue_ne]
    · rfl
    · exact fun hk => h ((oogaKey_inj a' a).mp hk)

lemma ooga_of_set_booga (s : Storage) (a a' : String) (v : Nat) :
    ooga_balance_of (set_booga_balance s a v) a' = ooga_balance_of s a' :=
  getValue_setValue_ne s (boogaKey a) (oogaKey a') v (oogaKey_ne_boogaKey a' a)

lemma ooga_of_set_totalOoga (s : Storage) (a' : String) (v : Nat) :
    ooga_balance_of (set_total_ooga s v) a' = ooga_balance_of s a' :=
  getValue_setValue_ne s totalOogaKey (oogaKey a') v (oogaKey_ne_totalOogaKey a')

lemma ooga_of_set_totalBooga (s : Storage) (a' : String) (v : Nat) :
    ooga_balance_of (set_total_booga s v) a' = ooga_balance_of s a' :=
  getValue_setValue_ne s totalBoogaKey (oogaKey a') v (oogaKey_ne_totalBoogaKey a')

lemma booga_of_set_booga (s : Storage) (a a' : String) (v : Nat) :
    booga_balance_of (set_booga_balance s a v) a'
      = if a' = a then v % 2 ^ 128 else booga_balance_of s a' := by
  rw [booga_balance_of, set_booga_balance]
  by_cases h : a' = a
  · subst h; rw [if_pos rfl, getValue_setValue_self]
  · rw [if_neg h, getValue_setValue_ne]
    · rfl
    · exact fun hk => h ((boogaKey_inj a' a).mp hk)

lemma booga_of_set_ooga (s : Storage) (a a' : String) (v : Nat) :
    booga_balance_of (set_ooga_balance s a v) a' = booga_balance_of s a' :=
  getValue_setValue_ne s (oogaKey a) (boogaKey a') v (Ne.symm (oogaKey_ne_boogaKey a a'))

lemma booga_of_set_totalOoga (s : Storage) (a' : String) (v : Nat) :
    booga_balance_of (set_total_ooga s v) a' = booga_balance_of s a' :=
  getValue_setValue_ne s totalOogaKey (boogaKey a') v (boogaKey_ne_totalOogaKey a')

lemma booga_of_set_totalBooga (s : Storage) (a' : String) (v : Nat) :
    booga_balance_of (set_total_booga s v) a' = booga_balance_of s a' :=
  getValue_setValue_ne s totalBoogaKey (boogaKey a') v (boogaKey_ne_totalBoogaKey a')

lemma totalOoga_of_set_totalOoga (s : Storage) (v : Nat) :
    total_ooga_of (set_total_ooga s v) = v % 2 ^ 128 :=
  getValue_setValue_self s totalOogaKey v

lemma totalOoga_of_set_ooga (s : Storage) (a : String) (v : Nat) :
    total_ooga_of (set_ooga_balance s a v) = total_ooga_of s :=
  getValue_setValue_ne s (oogaKey a) totalOogaKey v (Ne.symm (oogaKey_ne_totalOogaKey a))

lemma totalOoga_of_set_booga (s : Storage) (a : String) (v : Nat) :
    total_ooga_of (set_booga_balance s a v) = total_ooga_of s :=
  getValue_setValue_ne s (boogaKey a) totalOogaKey v (Ne.symm (boogaKey_ne_totalOogaKey a))

lemma totalOoga_of_set_totalBooga (s : Storage) (v : Nat) :
    total_ooga_of (set_total_booga s v) = total_ooga_of s :=
  getValue_setValue_ne s totalBoogaKey totalOogaKey v totalOogaKey_ne_totalBoogaKey

lemma totalBooga_of_set_totalBooga (s : Storage) (v : Nat) :
    total_booga_of (set_total_booga s v) = v % 2 ^ 128 :=
  getValue_setValue_self s totalBoogaKey v

lemma totalBooga_of_set_ooga (s : Storage) (a : String) (v : Nat) :
    total_booga_of (set_ooga_balance s a v) = total_booga_of s :=
  getValue_setValue_ne s (oogaKey a) totalBoogaKey v (Ne.symm (oogaKey_ne_totalBoogaKey a))

lemma totalBooga_of_set_booga (s : Storage) (a : String) (v : Nat) :
    total_booga_of (set_booga_balance s a v) = total_booga_of s :=
  getValue_setValue_ne s (boogaKey a) totalBoogaKey v (Ne.symm (boogaKey_ne_totalBoogaKey a))

lemma totalBooga_of_set_totalOoga (s : Storage) (v : Nat) :
    total_booga_of (set_total_ooga s v) = total_booga_of s :=
  getValue_setValue_ne s totalOogaKey totalBoogaKey v (Ne.symm totalOogaKey_ne_totalBoogaKey)

/-! ## Operation characterization lemmas -/

lemma claim_ooga_ok (s : Storage) (a : String) (u : Unit) (s2 : Storage)
    (h : claim_ooga s a = (Except.ok u, s2)) :
    ooga_balance_of s a + 1 ≤ U128_MAX ∧ total_ooga_of s + 1 ≤ U128_MAX ∧
      s2 = set_ooga_balance (set_total_ooga s (total_ooga_of s + 1)) a
        (ooga_balance_of s a + 1) := by
  simp only [claim_ooga] at h
  split_ifs at h with h1 h2
  · exact ⟨h1, h2, ((Prod.mk.injEq _ _ _ _).mp h).2.symm⟩
  · simp at h
  · simp at h

lemma claim_ooga_error_state (s : Storage) (a : String) (e : CErr) (s2 : Storage)
    (h : claim_ooga s a = (Except.error e, s2)) : s2 = s := by
  simp only [claim_ooga] at h
  split_ifs at h with h1 h2
  · simp at h
  · exact ((Prod.mk.injEq _ _ _ _).mp h).2.symm
  · exact ((Prod.mk.injEq _ _ _ _).mp h).2.symm

lemma exchange_ok (s : Storage) (a : String) (u : Unit) (s2 : Storage)
    (h : exchange_ooga_for_booga s a = (Except.ok u, s2)) :
    1 ≤ ooga_balance_of s a ∧ booga_balance_of s a + 1 ≤ U128_MAX ∧
      1 ≤ total_ooga_of s ∧ total_booga_of s + 1 ≤ U128_MAX ∧
      s2 = set_total_booga
        (set_total_ooga
          (set_booga_balance (set_ooga_balance s a (ooga_balance_of s a - 1)) a
            (booga_balance_of s a + 1))
          (total_ooga_of s - 1))
        (total_booga_of s + 1) := by
  simp only [exchange_ooga_for_booga, totalOoga_of_set_booga, totalOoga_of_set_ooga,
    totalBooga_of_set_booga, totalBooga_of_set_ooga] at h
  split_ifs at h with h1 h2 h3 h4
  · simp at h
  · exact ⟨by omega, h2, h3, h4, ((Prod.mk.injEq _ _ _ _).mp h).2.symm⟩
  · simp at h
  · simp at h
  · simp at h

lemma exchange_error_named (s : Storage) (a : String) (e : CErr) (s2 : Storage)
    (h : exchange_ooga_for_booga s a = (Except.error e, s2)) (hne : e ≠ CErr.panic) :
    e = CErr.insufficientBalance ∧ s2 = s := by
  simp only [exchange_ooga_for_booga, totalOoga_of_set_booga, totalOoga_of_set_ooga,
    totalBooga_of_set_booga, totalBooga_of_set_ooga] at h
  split_ifs at h with h1 h2 h3 h4
  · rw [Prod.mk.injEq, Except.error.injEq] at h
    exact ⟨h.1.symm, h.2.symm⟩
  · simp at h
  · rw [Prod.mk.injEq, Except.error.injEq] at h
    exact absurd h.1.symm hne
  · rw [Prod.mk.injEq, Except.error.injEq] at h
    exact absurd h.1.symm hne
  · rw [Prod.mk.injEq, Except.error.injEq] at h
    exact absurd h.1.symm hne

lemma dispatch_error_state (n : Nat) (rest : List String) (s : Storage) (e : CErr)
    (s' : Storage) (h : dispatch n rest s = (Except.error e, s')) (hne : e ≠ CErr.panic) :
    s' = s := by
  rw [dispatch.eq_def] at h
  split_ifs at h with h0 h1 h2 h3 h4 h5 h6
  · simp at h
  · cases rest with
    | nil => simp only [Prod.mk.injEq] at h; exact h.2.symm
    | cons a t =>
      cases hc : claim_ooga s a with
      | mk r s2 =>
        cases r with
        | ok u => simp [hc] at h
        | error e2 =>
          simp only [hc, Prod.mk.injEq, Except.error.injEq] at h
          rw [← h.2]
          exact claim_ooga_error_state s a e2 s2 hc
  · cases rest with
    | nil => simp only [Prod.mk.injEq] at h; exact h.2.symm
    | cons a t =>
      cases hc : exchange_ooga_for_booga s a with
      | mk r s2 =>
        cases r with
        | ok u => simp [hc] at h
        | error e2 =>
          simp only [hc, Prod.mk.injEq, Except.error.injEq] at h
          rw [← h.2]
          exact (exchange_error_named s a e2 s2 hc (by rw [h.1]; exact hne)).2
  · cases rest with
    | nil => simp only [Prod.mk.injEq] at h; exact h.2.symm
    | cons a t => simp at h
  · cases rest with
    | nil => simp only [Prod.mk.injEq] at h; exact h.2.symm
    | cons a t => simp at h
  · simp at h
  · simp at h
  · simp only [Prod.mk.injEq] at h; exact h.2.symm

/-- C3: a dispatched call that returns one of the five `anyhow` errors
(`MissingOperand`, `InvalidOpcodeFormat`, `UnrecognizedOpcode`,
`BalanceOverflow`, `InsufficientBalance`) leaves the storage exactly as it
was before the call: no key is written.  (An arithmetic-overflow abort of the
debug build is a panic, not a returned error, and is outside this claim's
error list.) -/
theorem failed_call_leaves_storage_unchanged (inputs : List String) (s : Storage)
    (e : CErr) (s' : Storage)
    (hrun : execute inputs s = (Except.error e, s'))
    (hnamed : e = CErr.missingOperand ∨ e = CErr.invalidOpcodeFormat
      ∨ e = CErr.unrecognizedOpcode ∨ e = CErr.balanceOverflow
      ∨ e = CErr.insufficientBalance) :
    s' = s := by
  have hne : e ≠ CErr.panic := by rcases hnamed with rfl | rfl | rfl | rfl | rfl <;> simp
  cases inputs with
  | nil =>
    simp only [execute, Prod.mk.injEq] at hrun
    exact hrun.2.symm
  | cons tok rest =>
    simp only [execute] at hrun
    cases hp : parseU8 tok with
    | none =>
      rw [hp] at hrun
      simp only [Prod.mk.injEq] at hrun
      exact hrun.2.symm
    | some n =>
      rw [hp] at hrun
      exact dispatch_error_state n rest s e s' hrun hne

/-- Witness for C3 at a concrete failing call: an exchange with zero balance
fails with `InsufficientBalance` and the storage is returned untouched. -/
theorem failed_call_leaves_storage_unchanged_witness :
    execute ["2", "alice"] emptyStorage
      = (Except.error CErr.insufficientBalance, emptyStorage)
    ∧ emptyStorage = emptyStorage :=
  ⟨rfl, failed_call_leaves_storage_unchanged ["2", "alice"] emptyStorage
    CErr.insufficientBalance emptyStorage rfl
    (Or.inr (Or.inr (Or.inr (Or.inr rfl))))⟩

/-- C7: for each of the four address-taking opcodes (1 claim, 2 exchange,
3/4 queries), an input sequence holding only the opcode token fails with
`MissingOperand` for every storage state, with the storage returned
untouched (no ledger field read or written — the result does not depend on
`s`); and operands are consumed strictly left-to-right from the front: the
call's behavior is fully determined by the opcode token and the first
following token. -/
theorem missing_operand_fails_before_mutation (tok a : String) (rest : List String)
    (n : Nat) (s : Storage)
    (hp : parseU8 tok = some n) (hn : n ∈ ([1, 2, 3, 4] : List Nat)) :
    execute [tok] s = (Except.error CErr.missingOperand, s)
    ∧ execute (tok :: a :: rest) s = execute [tok, a] s := by
  have hcase : n = 1 ∨ n = 2 ∨ n = 3 ∨ n = 4 := by simpa using hn
  constructor
  · simp only [execute]
    rw [hp]
    show dispatch n [] s = (Except.error CErr.missingOperand, s)
    rcases hcase with rfl | rfl | rfl | rfl <;> rfl
  · simp only [execute]
    rw [hp]
    show dispatch n (a :: rest) s = dispatch n [a] s
    rcases hcase with rfl | rfl | rfl | rfl <;> rfl

/-- Witness for C7: opcode 2 with no operand fails with `MissingOperand`. -/
theorem missing_operand_fails_before_mutation_witness :
    parseU8 "2" = some 2 ∧ (2 : Nat) ∈ ([1, 2, 3, 4] : List Nat)
    ∧ (execute ["2"] emptyStorage = (Except.error CErr.missingOperand, emptyStorage)
        ∧ execute ["2", "alice", "x"] emptyStorage = execute ["2", "alice"] emptyStorage) :=
  ⟨rfl, by decide,
    missing_operand_fails_before_mutation "2" "alice" ["x"] 2 emptyStorage rfl (by decide)⟩

/-- C8: every token that parses as a `u8` value outside the dispatch table
(anything above 6) fails with `UnrecognizedOpcode`, for any operand list,
and returns the storage untouched. -/
theorem unrecognized_opcode_fails (tok : String) (n : Nat) (operands : List String)
    (s : Storage) (hp : parseU8 tok = some n) (hn : 6 < n) :
    execute (tok :: operands) s = (Except.error CErr.unrecognizedOpcode, s) := by
  simp only [execute]
  rw [hp]
  show dispatch n operands s = (Except.error CErr.unrecognizedOpcode, s)
  rw [dispatch.eq_def, if_neg (by omega), if_neg (by omega), if_neg (by omega),
    if_neg (by omega), if_neg (by omega), if_neg (by omega), if_neg (by omega)]

/-- Witness for C8 at opcode 99 with a nonempty operand list. -/
theorem unrecognized_opcode_fails_witness :
    parseU8 "99" = some 99 ∧ (6 : Nat) < 99
    ∧ execute ["99", "a", "b"] emptyStorage
        = (Except.error CErr.unrecognizedOpcode, emptyStorage) :=
  ⟨rfl, by decide, unrecognized_opcode_fails "99" 99 ["a", "b"] emptyStorage rfl (by decide)⟩

/-- C10: surplus trailing input tokens are ignored.  For the zero-operand
opcodes (0, 5, 6) any two operand lists give the same result and final
storage; for the one-operand opcodes (1–4) any two operand lists sharing the
first token give the same result and final storage. -/
theorem surplus_tokens_ignored (tok a : String) (extra1 extra2 : List String)
    (n : Nat) (s : Storage) (hp : parseU8 tok = some n) :
    ((n = 0 ∨ n = 5 ∨ n = 6) → execute (tok :: extra1) s = execute (tok :: extra2) s)
    ∧ ((n = 1 ∨ n = 2 ∨ n = 3 ∨ n = 4) →
        execute (tok :: a :: extra1) s = execute (tok :: a :: extra2) s) := by
  constructor
  · intro h
    simp only [execute]
    rw [hp]
    show dispatch n extra1 s = dispatch n extra2 s
    rcases h with rfl | rfl | rfl <;> rfl
  · intro h
    simp only [execute]
    rw [hp]
    show dispatch n (a :: extra1) s = dispatch n (a :: extra2) s
    rcases h with rfl | rfl | rfl | rfl <;> rfl

/-- Witness for C10: a claim call with one surplus token and with two
surplus tokens behaves identically. -/
theorem surplus_tokens_ignored_witness :
    parseU8 "1" = some 1
    ∧ execute ["1", "alice", "x"] emptyStorage = execute ["1", "alice", "y", "z"] emptyStorage :=
  ⟨rfl,
    (surplus_tokens_ignored "1" "alice" ["x"] ["y", "z"] 1 emptyStorage rfl).2
      (Or.inl rfl)⟩

/-! ## Claim and exchange behavior (C2, C4, C5, C6) -/

/-- C4: `claim_ooga` returns `BalanceOverflow` exactly when the address's
OOGA balance is the maximum `u128`; and, as in Scenario E, starting with
`carol` at `u128::MAX - 1`, one claim succeeds reaching the maximum, a
second claim fails with `BalanceOverflow`, and the balance stays at the
maximum. -/
theorem balance_overflow_iff_max (s : Storage) (a : String) :
    ((claim_ooga s a).1 = Except.error CErr.balanceOverflow ↔ ooga_balance_of s a = U128_MAX)
    ∧ ((claim_ooga (set_ooga_balance emptyStorage "carol" (U128_MAX - 1)) "carol").1
        = Except.ok ()
      ∧ ooga_balance_of
          ((claim_ooga (set_ooga_balance emptyStorage "carol" (U128_MAX - 1)) "carol").2)
          "carol" = U128_MAX
      ∧ (claim_ooga
          ((claim_ooga (set_ooga_balance emptyStorage "carol" (U128_MAX - 1)) "carol").2)
          "carol").1 = Except.error CErr.balanceOverflow
      ∧ ooga_balance_of
          ((claim_ooga
            ((claim_ooga (set_ooga_balance emptyStorage "carol" (U128_MAX - 1)) "carol").2)
            "carol").2) "carol" = U128_MAX) := by
  constructor
  · have hb : ooga_balance_of s a ≤ U128_MAX := getValue_le_MAX s (oogaKey a)
    simp only [claim_ooga]
    split_ifs with h1 h2
    · constructor
      · exact fun h => absurd h (by simp)
      · exact fun h => absurd h (by omega)
    · constructor
      · exact fun h => absurd h (by simp)
      · exact fun h => absurd h (by omega)
    · constructor
      · exact fun _ => by omega
      · exact fun _ => by trivial
  · refine ⟨by decide, by decide, by decide, by decide⟩

/-- C5 counterexample: the claim quantifies over *every* storage state with
the balance strictly below the maximum, but in a state where `total_ooga`
is already the maximum `u128`, `claim_ooga` does not succeed: the unchecked
`total_ooga + 1` aborts the call. -/
theorem claim_total_overflow_cex :
    ooga_balance_of (set_total_ooga emptyStorage U128_MAX) "alice" < U128_MAX
    ∧ (claim_ooga (set_total_ooga emptyStorage U128_MAX) "alice").1
        = Except.error CErr.panic := by
  constructor
  · decide
  · decide

/-- C5 (amended): when both the address's OOGA balance and `total_ooga` are
strictly below the maximum `u128`, `claim_ooga` succeeds and increments the
balance and the total by exactly 1. -/
theorem claim_ooga_increments (s : Storage) (a : String)
    (hbal : ooga_balance_of s a < U128_MAX) (htot : total_ooga_of s < U128_MAX) :
    (claim_ooga s a).1 = Except.ok ()
    ∧ ooga_balance_of ((claim_ooga s a).2) a = ooga_balance_of s a + 1
    ∧ total_ooga_of ((claim_ooga s a).2) = total_ooga_of s + 1 := by
  simp only [claim_ooga]
  rw [if_pos (show ooga_balance_of s a + 1 ≤ U128_MAX by omega),
    if_pos (show total_ooga_of s + 1 ≤ U128_MAX by omega)]
  refine ⟨rfl, ?_, ?_⟩
  · show ooga_balance_of
        (set_ooga_balance (set_total_ooga s (total_ooga_of s + 1)) a
          (ooga_balance_of s a + 1)) a
      = ooga_balance_of s a + 1
    rw [ooga_of_set_ooga, if_pos rfl]
    exact mod_eq_of_le_MAX _ (by omega)
  · show total_ooga_of
        (set_ooga_balance (set_total_ooga s (total_ooga_of s + 1)) a
          (ooga_balance_of s a + 1))
      = total_ooga_of s + 1
    rw [totalOoga_of_set_ooga, totalOoga_of_set_totalOoga]
    exact mod_eq_of_le_MAX _ (by omega)

/-- Witness for the amended C5 on the empty store. -/
theorem claim_ooga_increments_witness :
    ooga_balance_of emptyStorage "alice" < U128_MAX
    ∧ total_ooga_of emptyStorage < U128_MAX
    ∧ ((claim_ooga emptyStorage "alice").1 = Except.ok ()
      ∧ ooga_balance_of ((claim_ooga emptyStorage "alice").2) "alice"
          = ooga_balance_of emptyStorage "alice" + 1
      ∧ total_ooga_of ((claim_ooga emptyStorage "alice").2)
          = total_ooga_of emptyStorage + 1) :=
  ⟨by decide, by decide,
    claim_ooga_increments emptyStorage "alice" (by decide) (by decide)⟩

/-- C2 counterexample: in the state that holds exactly one OOGA for `alice`
and nothing else (so `total_ooga` reads 0 — such a state is what a
re-`initialize` leaves behind), the exchange does not succeed even though
the balance check passes: the unchecked `total_ooga - 1` aborts the call
after the two balance writes. -/
theorem exchange_no_success_cex :
    1 ≤ ooga_balance_of (set_ooga_balance emptyStorage "alice" 1) "alice"
    ∧ (exchange_ooga_for_booga (set_ooga_balance emptyStorage "alice" 1) "alice").1
        = Except.error CErr.panic := by
  constructor
  · decide
  · decide

/-- `s'` agrees with `s` on every key outside `ks`. -/
def agreesExcept (s s' : Storage) (ks : List String) : Prop :=
  ∀ k, k ∉ ks → s' k = s k

/-- C2 (amended): `exchange_ooga_for_booga` fails with `InsufficientBalance`
when the OOGA balance is below 1, leaving storage untouched; when the
balance is at least 1 *and* none of the three unchecked total/BOOGA
additions and subtractions would leave the `u128` range, it succeeds,
moving exactly one unit from OOGA to BOOGA for the address and between the
totals, and writes no other storage key. -/
theorem exchange_spec (s : Storage) (a : String) :
    (ooga_balance_of s a < 1 →
      exchange_ooga_for_booga s a = (Except.error CErr.insufficientBalance, s))
    ∧ (1 ≤ ooga_balance_of s a → booga_balance_of s a < U128_MAX →
        1 ≤ total_ooga_of s → total_booga_of s < U128_MAX →
        (exchange_ooga_for_booga s a).1 = Except.ok ()
        ∧ ooga_balance_of ((exchange_ooga_for_booga s a).2) a = ooga_balance_of s a - 1
        ∧ booga_balance_of ((exchange_ooga_for_booga s a).2) a = booga_balance_of s a + 1
        ∧ total_ooga_of ((exchange_ooga_for_booga s a).2) = total_ooga_of s - 1
        ∧ total_booga_of ((exchange_ooga_for_booga s a).2) = total_booga_of s + 1
        ∧ agreesExcept s ((exchange_ooga_for_booga s a).2)
            [oogaKey a, boogaKey a, totalOogaKey, totalBoogaKey]) := by
  constructor
  · intro h
    simp only [exchange_ooga_for_booga]
    rw [if_pos h]
  · intro h1 h2 h3 h4
    have hbM : ooga_balance_of s a ≤ U128_MAX := getValue_le_MAX s (oogaKey a)
    have htM : total_ooga_of s ≤ U128_MAX := getValue_le_MAX s totalOogaKey
    cases hx : exchange_ooga_for_booga s a with
    | mk r s' =>
      simp only [exchange_ooga_for_booga, totalOoga_of_set_booga, totalOoga_of_set_ooga,
        totalBooga_of_set_booga, totalBooga_of_set_ooga] at hx
      rw [if_neg (by omega), if_pos (by omega), if_pos h3, if_pos (by omega)] at hx
      have hr : Except.ok () = r := ((Prod.mk.injEq _ _ _ _).mp hx).1
      have hs : s' = set_total_booga
          (set_total_ooga
            (set_booga_balance (set_ooga_balance s a (ooga_balance_of s a - 1)) a
              (booga_balance_of s a + 1))
            (total_ooga_of s - 1))
          (total_booga_of s + 1) := ((Prod.mk.injEq _ _ _ _).mp hx).2.symm
      subst hr
      rw [hs]
      refine ⟨by trivial, ?_, ?_, ?_, ?_, ?_⟩
      · rw [ooga_of_set_totalBooga, ooga_of_set_totalOoga, ooga_of_set_booga,
          ooga_of_set_ooga, if_pos rfl]
        exact mod_eq_of_le_MAX _ (by omega)
      · rw [booga_of_set_totalBooga, booga_of_set_totalOoga, booga_of_set_booga, if_pos rfl]
        exact mod_eq_of_le_MAX _ (by omega)
      · rw [totalOoga_of_set_totalBooga, totalOoga_of_set_totalOoga]
        exact mod_eq_of_le_MAX _ (by omega)
      · rw [totalBooga_of_set_totalBooga]
        exact mod_eq_of_le_MAX _ (by omega)
      · intro k hk
        simp only [List.mem_cons, List.not_mem_nil, or_false, not_or] at hk
        obtain ⟨hk1, hk2, hk3, hk4⟩ := hk
        simp only []
        rw [set_total_booga, setValue_app_ne _ _ _ _ hk4,
          set_total_ooga, setValue_app_ne _ _ _ _ hk3,
          set_booga_balance, setValue_app_ne _ _ _ _ hk2,
          set_ooga_balance, setValue_app_ne _ _ _ _ hk1]

/-- State for the C2 witness: `alice` holds 2 OOGA and `total_ooga = 2`. -/
def c2WitnessState : Storage := set_total_ooga (set_ooga_balance emptyStorage "alice" 2) 2

/-- Witness for the amended C2: one state exercising the failure branch and
one exercising the success branch. -/
theorem exchange_spec_witness :
    (ooga_balance_of emptyStorage "bob" < 1
      ∧ exchange_ooga_for_booga emptyStorage "bob"
          = (Except.error CErr.insufficientBalance, emptyStorage))
    ∧ (1 ≤ ooga_balance_of c2WitnessState "alice"
      ∧ booga_balance_of c2WitnessState "alice" < U128_MAX
      ∧ 1 ≤ total_ooga_of c2WitnessState
      ∧ total_booga_of c2WitnessState < U128_MAX
      ∧ ((exchange_ooga_for_booga c2WitnessState "alice").1 = Except.ok ()
        ∧ ooga_balance_of ((exchange_ooga_for_booga c2WitnessState "alice").2) "alice"
            = ooga_balance_of c2WitnessState "alice" - 1
        ∧ booga_balance_of ((exchange_ooga_for_booga c2WitnessState "alice").2) "alice"
            = booga_balance_of c2WitnessState "alice" + 1
        ∧ total_ooga_of ((exchange_ooga_for_booga c2WitnessState "alice").2)
            = total_ooga_of c2WitnessState - 1
        ∧ total_booga_of ((exchange_ooga_for_booga c2WitnessState "alice").2)
            = total_booga_of c2WitnessState + 1
        ∧ agreesExcept c2WitnessState ((exchange_ooga_for_booga c2WitnessState "alice").2)
            [oogaKey "alice", boogaKey "alice", totalOogaKey, totalBoogaKey])) :=
  ⟨⟨by decide, (exchange_spec emptyStorage "bob").1 (by decide)⟩,
    ⟨by decide, by decide, by decide, by decide,
      (exchange_spec c2WitnessState "alice").2 (by decide) (by decide) (by decide)
        (by decide)⟩⟩

/-- C6 counterexample state: `total_ooga = 1`, `total_booga = u128::MAX`,
one OOGA held by `"a"`. -/
def c6CexState : Storage :=
  set_ooga_balance (set_total_booga (set_total_ooga emptyStorage 1) U128_MAX) "a" 1

/-- C6 counterexample: an exchange from `c6CexState` changes the exact sum
`total_ooga + total_booga`: the call writes the decremented `total_ooga`
and then aborts on the unchecked `total_booga + 1`, so the sum drops by 1. -/
theorem exchange_changes_supply_sum_cex :
    total_ooga_of ((exchange_ooga_for_booga c6CexState "a").2)
        + total_booga_of ((exchange_ooga_for_booga c6CexState "a").2)
      ≠ total_ooga_of c6CexState + total_booga_of c6CexState := by
  decide

/-- C6 (amended): whenever `total_booga` is strictly below the maximum
`u128`, an `exchange_ooga_for_booga` call — success or failure — leaves the
exact sum `total_ooga + total_booga` unchanged. -/
theorem exchange_conserves_supply_sum (s : Storage) (a : String)
    (h : total_booga_of s < U128_MAX) :
    total_ooga_of ((exchange_ooga_for_booga s a).2)
        + total_booga_of ((exchange_ooga_for_booga s a).2)
      = total_ooga_of s + total_booga_of s := by
  have htM : total_ooga_of s ≤ U128_MAX := getValue_le_MAX s totalOogaKey
  cases hx : exchange_ooga_for_booga s a with
  | mk r s' =>
    simp only [exchange_ooga_for_booga, totalOoga_of_set_booga, totalOoga_of_set_ooga,
      totalBooga_of_set_booga, totalBooga_of_set_ooga] at hx
    split_ifs at hx with h1 h2 h3 h4
    all_goals
      simp only [Prod.mk.injEq] at hx
      rw [← hx.2]
    · simp only []
      rw [totalOoga_of_set_totalBooga, totalOoga_of_set_totalOoga,
        totalBooga_of_set_totalBooga,
        mod_eq_of_le_MAX (total_ooga_of s - 1) (by omega),
        mod_eq_of_le_MAX (total_booga_of s + 1) (by omega)]
      omega
    · omega
    · simp only []
      rw [totalOoga_of_set_booga, totalOoga_of_set_ooga,
        totalBooga_of_set_booga, totalBooga_of_set_ooga]
    · simp only []
      rw [totalOoga_of_set_ooga, totalBooga_of_set_ooga]

/-- Witness for the amended C6 on the empty store. -/
theorem exchange_conserves_supply_sum_witness :
    total_booga_of emptyStorage < U128_MAX
    ∧ total_ooga_of ((exchange_ooga_for_booga emptyStorage "a").2)
          + total_booga_of ((exchange_ooga_for_booga emptyStorage "a").2)
        = total_ooga_of emptyStorage + total_booga_of emptyStorage :=
  ⟨by decide, exchange_conserves_supply_sum emptyStorage "a" (by decide)⟩

/-! ## Storage reads (C9) -/

/-- C9: the typed read never fails: it returns 0 when the key is absent,
returns 0 when the stored byte value is shorter than 16 bytes, and returns
the little-endian `u128` decoded from the first 16 bytes otherwise. -/
theorem get_value_permissive (s : Storage) (k : String) (bs : List Nat) :
    (s k = none → getValue s k = 0)
    ∧ (s k = some bs → bs.length < 16 → getValue s k = 0)
    ∧ (s k = some bs → 16 ≤ bs.length → getValue s k = fromLEBytes (bs.take 16)) := by
  refine ⟨?_, ?_, ?_⟩
  · intro h
    simp only [getValue, h]
  · intro h hl
    simp only [getValue, h]
    rw [if_neg (by omega)]
  · intro h hl
    simp only [getValue, h]
    rw [if_pos hl]

/-- Store holding a 1-byte (under-length) value at key `"k"`. -/
def shortValueStore : Storage := fun k => if k = "k" then some [7] else none

/-- Store holding a 17-byte value at key `"k"`. -/
def longValueStore : Storage := fun k => if k = "k" then some (List.replicate 17 3) else none

/-- Witness for C9: an absent key, an under-length value, and a 17-byte
value whose first 16 bytes are decoded. -/
theorem get_value_permissive_witness :
    (emptyStorage "absent" = none ∧ getValue emptyStorage "absent" = 0)
    ∧ (shortValueStore "k" = some [7] ∧ ([7] : List Nat).length < 16
        ∧ getValue shortValueStore "k" = 0)
    ∧ (longValueStore "k" = some (List.replicate 17 3)
        ∧ 16 ≤ (List.replicate 17 (3 : Nat)).length
        ∧ getValue longValueStore "k" = fromLEBytes ((List.replicate 17 3).take 16)) :=
  ⟨⟨rfl, (get_value_permissive emptyStorage "absent" []).1 rfl⟩,
    ⟨rfl, by decide, (get_value_permissive shortValueStore "k" [7]).2.1 rfl (by decide)⟩,
    ⟨rfl, by decide,
      (get_value_permissive longValueStore "k" (List.replicate 17 3)).2.2 rfl (by decide)⟩⟩

/-! ## The supply invariant (C1) -/

/-- A call whose opcode token parses to 0 (`initialize`). -/
def isInitCall (c : List String) : Bool :=
  match c with
  | tok :: _ => decide (parseU8 tok = some 0)
  | [] => false

/-- The token a call can use as its address operand: the first token after
the opcode (over-approximation: also collected for calls that ignore it). -/
def callAddrs (c : List String) : List String :=
  match c with
  | _ :: a :: _ => [a]
  | _ => []

/-- The supply invariant relative to a covering address list `A`: each total
equals the sum of the corresponding per-address balances over `A`, and every
address outside `A` has zero balances (so the sums over `A` are the sums
over *all* addresses). -/
def SupplyInv (A : List String) (s : Storage) : Prop :=
  total_ooga_of s = (A.map (ooga_balance_of s)).sum
  ∧ total_booga_of s = (A.map (booga_balance_of s)).sum
  ∧ ∀ x, x ∉ A → ooga_balance_of s x = 0 ∧ booga_balance_of s x = 0

lemma sum_map_update (A : List String) (f : String → Nat) (a : String) (w : Nat)
    (hA : A.Nodup) (ha : a ∈ A) :
    (A.map (fun x => if x = a then w else f x)).sum + f a = (A.map f).sum + w := by
  induction A with
  | nil => cases ha
  | cons b A ih =>
    rw [List.nodup_cons] at hA
    rcases List.mem_cons.mp ha with h | hmem
    · subst h
      rw [List.map_cons, List.map_cons, List.sum_cons, List.sum_cons, if_pos rfl]
      have hmap : A.map (fun x => if x = a then w else f x) = A.map f :=
        List.map_congr_left (fun x hx => if_neg (fun hxa => hA.1 (by rw [← hxa]; exact hx)))
      rw [hmap]
      omega
    · have hba : ¬b = a := fun hb => hA.1 (by rw [hb]; exact hmem)
      rw [List.map_cons, List.map_cons, List.sum_cons, List.sum_cons, if_neg hba]
      have := ih hA.2 hmem
      omega

lemma SupplyInv_init (A : List String) (s : Storage)
    (hzero : ∀ x, ooga_balance_of s x = 0 ∧ booga_balance_of s x = 0) :
    SupplyInv A (set_total_booga (set_total_ooga s 0) 0) := by
  refine ⟨?_, ?_, ?_⟩
  · rw [totalOoga_of_set_totalBooga, totalOoga_of_set_totalOoga,
      mod_eq_of_le_MAX 0 (Nat.zero_le _)]
    have hmap : A.map (ooga_balance_of (set_total_booga (set_total_ooga s 0) 0))
        = A.map (fun _ => 0) := by
      apply List.map_congr_left
      intro x _
      rw [ooga_of_set_totalBooga, ooga_of_set_totalOoga]
      exact (hzero x).1
    rw [hmap]
    simp
  · rw [totalBooga_of_set_totalBooga, mod_eq_of_le_MAX 0 (Nat.zero_le _)]
    have hmap : A.map (booga_balance_of (set_total_booga (set_total_ooga s 0) 0))
        = A.map (fun _ => 0) := by
      apply List.map_congr_left
      intro x _
      rw [booga_of_set_totalBooga, booga_of_set_totalOoga]
      exact (hzero x).2
    rw [hmap]
    simp
  · intro x _
    rw [ooga_of_set_totalBooga, ooga_of_set_totalOoga,
      booga_of_set_totalBooga, booga_of_set_totalOoga]
    exact hzero x

lemma SupplyInv_claim (A : List String) (hA : A.Nodup) (s s2 : Storage) (a : String)
    (ha : a ∈ A) (hinv : SupplyInv A s) (u : Unit)
    (hc : claim_ooga s a = (Except.ok u, s2)) : SupplyInv A s2 := by
  obtain ⟨hb, ht, hs2⟩ := claim_ooga_ok s a u s2 hc
  obtain ⟨h1, h2, h3⟩ := hinv
  subst hs2
  refine ⟨?_, ?_, ?_⟩
  · rw [totalOoga_of_set_ooga, totalOoga_of_set_totalOoga, mod_eq_of_le_MAX _ ht]
    have hmap : A.map (ooga_balance_of
          (set_ooga_balance (set_total_ooga s (total_ooga_of s + 1)) a
            (ooga_balance_of s a + 1)))
        = A.map (fun x => if x = a then ooga_balance_of s a + 1 else ooga_balance_of s x) := by
      apply List.map_congr_left
      intro x _
      rw [ooga_of_set_ooga]
      by_cases hxa : x = a
      · rw [if_pos hxa, if_pos hxa, mod_eq_of_le_MAX _ hb]
      · rw [if_neg hxa, if_neg hxa, ooga_of_set_totalOoga]
    rw [hmap]
    have hsum := sum_map_update A (ooga_balance_of s) a (ooga_balance_of s a + 1) hA ha
    omega
  · rw [totalBooga_of_set_ooga, totalBooga_of_set_totalOoga]
    have hmap : A.map (booga_balance_of
          (set_ooga_balance (set_total_ooga s (total_ooga_of s + 1)) a
            (ooga_balance_of s a + 1)))
        = A.map (booga_balance_of s) := by
      apply List.map_congr_left
      intro x _
      rw [booga_of_set_ooga, booga_of_set_totalOoga]
    rw [hmap]
    exact h2
  · intro x hx
    have hxa : ¬x = a := fun hxa => hx (by rw [hxa]; exact ha)
    rw [ooga_of_set_ooga, if_neg hxa, ooga_of_set_totalOoga,
      booga_of_set_ooga, booga_of_set_totalOoga]
    exact h3 x hx

lemma SupplyInv_exchange (A : List String) (hA : A.Nodup) (s s2 : Storage) (a : String)
    (ha : a ∈ A) (hinv : SupplyInv A s) (u : Unit)
    (hx : exchange_ooga_for_booga s a = (Except.ok u, s2)) : SupplyInv A s2 := by
  obtain ⟨h1x, h2x, h3x, h4x, hs2⟩ := exchange_ok s a u s2 hx
  obtain ⟨h1, h2, h3⟩ := hinv
  have hbM : ooga_balance_of s a ≤ U128_MAX := getValue_le_MAX s (oogaKey a)
  have htM : total_ooga_of s ≤ U128_MAX := getValue_le_MAX s totalOogaKey
  subst hs2
  refine ⟨?_, ?_, ?_⟩
  · rw [totalOoga_of_set_totalBooga, totalOoga_of_set_totalOoga,
      mod_eq_of_le_MAX _ (by omega)]
    have hmap : A.map (ooga_balance_of
          (set_total_booga
            (set_total_ooga
              (set_booga_balance (set_ooga_balance s a (ooga_balance_of s a - 1)) a
                (booga_balance_of s a + 1))
              (total_ooga_of s - 1))
            (total_booga_of s + 1)))
        = A.map (fun x => if x = a then ooga_balance_of s a - 1 else ooga_balance_of s x) := by
      apply List.map_congr_left
      intro x _
      rw [ooga_of_set_totalBooga, ooga_of_set_totalOoga, ooga_of_set_booga, ooga_of_set_ooga]
      by_cases hxa : x = a
      · rw [if_pos hxa, if_pos hxa, mod_eq_of_le_MAX _ (by omega)]
      · rw [if_neg hxa, if_neg hxa]
    rw [hmap]
    have hsum := sum_map_update A (ooga_balance_of s) a (ooga_balance_of s a - 1) hA ha
    omega
  · rw [totalBooga_of_set_totalBooga, mod_eq_of_le_MAX _ h4x]
    have hmap : A.map (booga_balance_of
          (set_total_booga
            (set_total_ooga
              (set_booga_balance (set_ooga_balance s a (ooga_balance_of s a - 1)) a
                (booga_balance_of s a + 1))
              (total_ooga_of s - 1))
            (total_booga_of s + 1)))
        = A.map (fun x => if x = a then booga_balance_of s a + 1 else booga_balance_of s x) := by
      apply List.map_congr_left
      intro x _
      rw [booga_of_set_totalBooga, booga_of_set_totalOoga, booga_of_set_booga]
      by_cases hxa : x = a
      · rw [if_pos hxa, if_pos hxa, mod_eq_of_le_MAX _ h2x]
      · rw [if_neg hxa, if_neg hxa, booga_of_set_ooga]
    rw [hmap]
    have hsum := sum_map_update A (booga_balance_of s) a (booga_balance_of s a + 1) hA ha
    omega
  · intro x hx
    have hxa : ¬x = a := fun hxa => hx (by rw [hxa]; exact ha)
    rw [ooga_of_set_totalBooga, ooga_of_set_totalOoga, ooga_of_set_booga, ooga_of_set_ooga,
      if_neg hxa, booga_of_set_totalBooga, booga_of_set_totalOoga, booga_of_set_booga,
      if_neg hxa, booga_of_set_ooga]
    exact h3 x hx

lemma execute_preserves_SupplyInv (A : List String) (hA : A.Nodup) (c : List String)
    (s s' : Storage) (r : CallResponse)
    (hninit : isInitCall c = false)
    (haddr : ∀ x ∈ callAddrs c, x ∈ A)
    (hinv : SupplyInv A s)
    (hexec : execute c s = (Except.ok r, s')) :
    SupplyInv A s' := by
  cases c with
  | nil => simp [execute] at hexec
  | cons tok rest =>
    simp only [execute] at hexec
    cases hp : parseU8 tok with
    | none => rw [hp] at hexec; simp at hexec
    | some n =>
      rw [hp] at hexec
      have hne0 : ¬parseU8 tok = some 0 :=
        of_decide_eq_false (by simpa [isInitCall] using hninit)
      have hn0 : ¬n = 0 := fun hn => hne0 (by rw [hp, hn])
      replace hexec : dispatch n rest s = (Except.ok r, s') := hexec
      rw [dispatch.eq_def] at hexec
      split_ifs at hexec with h0 h1 h2 h3 h4 h5
      · cases rest with
        | nil => simp at hexec
        | cons a t =>
          have ha : a ∈ A := haddr a (by simp [callAddrs])
          cases hc : claim_ooga s a with
          | mk rc s2 =>
            cases rc with
            | ok u =>
              simp only [hc, Prod.mk.injEq] at hexec
              rw [← hexec.2]
              exact SupplyInv_claim A hA s s2 a ha ⟨hinv.1, hinv.2.1, hinv.2.2⟩ u hc
            | error e2 => simp [hc] at hexec
      · cases rest with
        | nil => simp at hexec
        | cons a t =>
          have ha : a ∈ A := haddr a (by simp [callAddrs])
          cases hc : exchange_ooga_for_booga s a with
          | mk rc s2 =>
            cases rc with
            | ok u =>
              simp only [hc, Prod.mk.injEq] at hexec
              rw [← hexec.2]
              exact SupplyInv_exchange A hA s s2 a ha ⟨hinv.1, hinv.2.1, hinv.2.2⟩ u hc
            | error e2 => simp [hc] at hexec
      · cases rest with
        | nil => simp at hexec
        | cons a t =>
          simp only [Prod.mk.injEq] at hexec
          rw [← hexec.2]
          exact hinv
      · cases rest with
        | nil => simp at hexec
        | cons a t =>
          simp only [Prod.mk.injEq] at hexec
          rw [← hexec.2]
          exact hinv
      · simp only [Prod.mk.injEq] at hexec
        rw [← hexec.2]
        exact hinv
      · simp only [Prod.mk.injEq] at hexec
        rw [← hexec.2]
        exact hinv
      · simp at hexec

lemma runCalls_preserves_SupplyInv (A : List String) (hA : A.Nodup)
    (calls : List (List String)) :
    ∀ s sfin : Storage, (∀ c ∈ calls, isInitCall c = false) →
      (∀ c ∈ calls, ∀ x ∈ callAddrs c, x ∈ A) →
      SupplyInv A s → runCalls calls s = some sfin → SupplyInv A sfin := by
  induction calls with
  | nil =>
    intro s sfin _ _ hinv hrun
    simp only [runCalls, Option.some.injEq] at hrun
    rw [← hrun]
    exact hinv
  | cons c rest ih =>
    intro s sfin hni haddr hinv hrun
    simp only [runCalls] at hrun
    cases hx : execute c s with
    | mk r s1 =>
      rw [hx] at hrun
      cases r with
      | ok resp =>
        exact ih s1 sfin (fun d hd => hni d (List.mem_cons_of_mem c hd))
          (fun d hd => haddr d (List.mem_cons_of_mem c hd))
          (execute_preserves_SupplyInv A hA c s s1 resp (hni c (List.mem_cons_self c rest))
            (haddr c (List.mem_cons_self c rest)) hinv hx)
          hrun
      | error e => simp at hrun

/-- C1 (amended): starting from a storage whose per-address balances are all
zero, after any sequence of successful dispatched calls that begins with an
`initialize()` call and contains no further `initialize()`, `total_ooga`
equals the sum of the per-address OOGA balances (over any duplicate-free
address list `A` covering the operand tokens of the sequence, with every
address outside `A` holding zero), and symmetrically for BOOGA. -/
theorem supply_equals_balance_sum_after_init (c0 : List String)
    (calls : List (List String)) (s0 sfin : Storage) (A : List String)
    (hA : A.Nodup)
    (hzero : ∀ x, ooga_balance_of s0 x = 0 ∧ booga_balance_of s0 x = 0)
    (hinit : isInitCall c0 = true)
    (hnoinit : ∀ c ∈ calls, isInitCall c = false)
    (haddr : ∀ c ∈ calls, ∀ x ∈ callAddrs c, x ∈ A)
    (hrun : runCalls (c0 :: calls) s0 = some sfin) :
    SupplyInv A sfin := by
  cases c0 with
  | nil => simp [isInitCall] at hinit
  | cons tok rest =>
    have hp0 : parseU8 tok = some 0 :=
      of_decide_eq_true (by simpa [isInitCall] using hinit)
    simp only [runCalls, execute, hp0, dispatch] at hrun
    exact runCalls_preserves_SupplyInv A hA calls _ sfin hnoinit haddr
      (SupplyInv_init A s0 hzero) hrun

/-- Final state of the C1 witness run `initialize(); claim_ooga("alice")`. -/
def c1WitnessFinal : Storage :=
  set_ooga_balance (set_total_ooga (set_total_booga (set_total_ooga emptyStorage 0) 0) 1)
    "alice" 1

/-- Witness for the amended C1: after `initialize(); claim_ooga("alice")`
from the empty store, the supply invariant holds with `A = ["alice"]`. -/
theorem supply_equals_balance_sum_after_init_witness :
    (["alice"] : List String).Nodup
    ∧ isInitCall ["0"] = true
    ∧ runCalls [["0"], ["1", "alice"]] emptyStorage = some c1WitnessFinal
    ∧ SupplyInv ["alice"] c1WitnessFinal :=
  ⟨by decide, by decide, rfl,
    supply_equals_balance_sum_after_init ["0"] [["1", "alice"]] emptyStorage c1WitnessFinal
      ["alice"] (by decide) (fun _ => ⟨rfl, rfl⟩) (by decide) (by decide) (by decide) rfl⟩

/-- Final state of the C1 counterexample run
`initialize(); claim_ooga("alice"); initialize()`. -/
def c1CexFinal : Storage :=
  set_total_booga
    (set_total_ooga
      (set_ooga_balance (set_total_ooga (set_total_booga (set_total_ooga emptyStorage 0) 0) 1)
        "alice" 1)
      0)
    0

/-- C1 counterexample: the successful sequence
`initialize(); claim_ooga("alice"); initialize()` — which begins with
`initialize()` and contains a second `initialize()` after a claim — ends in
a state where `total_ooga` is 0 while `alice` holds 1 OOGA, so `total_ooga`
differs from the sum of all per-address OOGA balances (`"alice"` is the only
address ever written). -/
theorem reinit_breaks_supply_invariant :
    runCalls [["0"], ["1", "alice"], ["0"]] emptyStorage = some c1CexFinal
    ∧ total_ooga_of c1CexFinal = 0
    ∧ ooga_balance_of c1CexFinal "alice" = 1
    ∧ total_ooga_of c1CexFinal ≠ (["alice"].map (ooga_balance_of c1CexFinal)).sum :=
  ⟨rfl, by decide, by decide, by decide⟩
